import Mathlib

/-!
Verification development for the Trade Republic export service (src/js.py).

The embedding models, from the source:
* the civil-calendar arithmetic used by the three timestamp-correction tiers
  (fix_trade_republic_csv, fix_transaction_dates_direct, fix_transaction_dates),
  including the Europe/Berlin conversion of the strict tier (modelled by the
  EU daylight-saving rule in force since 1996: summer time from the last
  Sunday of March 01:00 UTC to the last Sunday of October 01:00 UTC, matching
  the tz database for all dates the service handles);
* the timestamp-correction cascade as invoked from fetch_data;
* the portfolio curator (process_portfolio_csv);
* the instrument-detail classifier (save_details_to_csv);
* the session store (AUTH_SESSIONS) with its operations start_auth,
  verify_2fa, fetch-data and cleanup_sessions;
* the harvest pipeline (fetch_data) over an environment that supplies the
  outcome of each external provider call.
-/

/-- Civil datetime: year, month, day, hour, minute, second, microsecond.
Mirrors the fields of a Python datetime value. -/
structure DT where
  year : Nat
  month : Nat
  day : Nat
  hour : Nat
  minute : Nat
  second : Nat
  micro : Nat
deriving DecidableEq, Repr

/-- Gregorian leap-year test. -/
def isLeapYear (y : Nat) : Bool :=
  y % 4 == 0 && (y % 100 != 0 || y % 400 == 0)

/-- Number of days in a month of the proleptic Gregorian calendar. -/
def daysInMonth (y m : Nat) : Nat :=
  if m == 2 then (if isLeapYear y then 29 else 28)
  else if m == 4 || m == 6 || m == 9 || m == 11 then 30
  else 31

/-- Days since 0000-03-01 of the proleptic Gregorian calendar (the
civil-from-days scheme, specialised to nonnegative years). -/
def daysFromCivil (y m d : Nat) : Nat :=
  let y' := if m ≤ 2 then y - 1 else y
  let era := y' / 400
  let yoe := y' % 400
  let mp := if m > 2 then m - 3 else m + 9
  let doy := (153 * mp + 2) / 5 + (d - 1)
  let doe := yoe * 365 + yoe / 4 - yoe / 100 + doy
  era * 146097 + doe

/-- Inverse of daysFromCivil: the (year, month, day) of a day count. -/
def civilFromDays (n : Nat) : Nat × Nat × Nat :=
  let era := n / 146097
  let doe := n % 146097
  let yoe := (doe - doe / 1460 + doe / 36524 - doe / 146096) / 365
  let y := yoe + era * 400
  let doy := doe - (365 * yoe + yoe / 4 - yoe / 100)
  let mp := (5 * doy + 2) / 153
  let d := doy - (153 * mp + 2) / 5 + 1
  let m := if mp < 10 then mp + 3 else mp - 9
  (if m ≤ 2 then y + 1 else y, m, d)

/-- Seconds since the reference instant 0000-03-01T00:00:00. -/
def dtToSecs (t : DT) : Nat :=
  daysFromCivil t.year t.month t.day * 86400 +
    t.hour * 3600 + t.minute * 60 + t.second

/-- Datetime of a second count (microseconds carried through unchanged). -/
def dtFromSecs (n : Nat) (micro : Nat) : DT :=
  let c := civilFromDays (n / 86400)
  let r := n % 86400
  ⟨c.1, c.2.1, c.2.2, r / 3600, r % 3600 / 60, r % 60, micro⟩

/-- Day-of-week with Sunday as 0 (0000-03-01 was a Wednesday). -/
def dowSun0 (days : Nat) : Nat := (days + 3) % 7

/-- Day of month of the last Sunday of the given month. -/
def lastSundayDay (y m : Nat) : Nat :=
  let L := daysInMonth y m
  L - dowSun0 (daysFromCivil y m L)

/-- Second count of the instant Europe/Berlin switches to summer time in
year y: last Sunday of March, 01:00 UTC. -/
def dstStartSecs (y : Nat) : Nat :=
  daysFromCivil y 3 (lastSundayDay y 3) * 86400 + 3600

/-- Second count of the instant Europe/Berlin switches back to standard
time in year y: last Sunday of October, 01:00 UTC. -/
def dstEndSecs (y : Nat) : Nat :=
  daysFromCivil y 10 (lastSundayDay y 10) * 86400 + 3600

/-- UTC offset, in hours, of Europe/Berlin at a UTC instant. -/
def berlinOffsetHours (utcSecs : Nat) : Nat :=
  let y := (civilFromDays (utcSecs / 86400)).1
  if dstStartSecs y ≤ utcSecs && utcSecs < dstEndSecs y then 2 else 1

/-- Range validation performed by the Python datetime constructor. -/
def validDT (t : DT) : Bool :=
  1 ≤ t.year && t.year ≤ 9999 && 1 ≤ t.month && t.month ≤ 12 &&
  1 ≤ t.day && t.day ≤ daysInMonth t.year t.month &&
  t.hour ≤ 23 && t.minute ≤ 59 && t.second ≤ 59

/-- Conversion of a UTC wall-clock reading to Europe/Berlin, as
pytz.utc.localize(dt).astimezone(TZ_EUROPE_BERLIN) computes it; none when
the result would leave the representable year range (OverflowError). -/
def utcToBerlin (t : DT) : Option DT :=
  let s := dtToSecs t
  let r := dtFromSecs (s + berlinOffsetHours s * 3600) t.micro
  if r.year ≤ 9999 then some r else none

/-- Adding k hours to a datetime, as Python timedelta addition; none when
the result would leave the representable year range (OverflowError). -/
def dtAddHours (t : DT) (k : Nat) : Option DT :=
  let r := dtFromSecs (dtToSecs t + k * 3600) t.micro
  if r.year ≤ 9999 then some r else none

/-- Approximate daylight-saving proxy used by tiers 2 and 3: two hours for
months March through October, one hour otherwise. -/
def dstProxyHours (m : Nat) : Nat := if 3 ≤ m && m ≤ 10 then 2 else 1

example : civilFromDays (daysFromCivil 2025 1 19) = (2025, 1, 19) := by decide
example : civilFromDays (daysFromCivil 2000 2 29) = (2000, 2, 29) := by decide
example : lastSundayDay 2025 3 = 30 := by decide
example : lastSundayDay 2025 10 = 26 := by decide
example : lastSundayDay 2023 3 = 26 := by decide
example : berlinOffsetHours (dtToSecs ⟨2025, 1, 19, 21, 27, 37, 0⟩) = 1 := by decide
example : berlinOffsetHours (dtToSecs ⟨2025, 7, 1, 12, 0, 0, 0⟩) = 2 := by decide
example : utcToBerlin ⟨2025, 1, 19, 21, 27, 37, 0⟩ =
    some ⟨2025, 1, 19, 22, 27, 37, 0⟩ := by decide

/-! String utilities shared by the tiers. -/

/-- Digit test for ASCII characters. -/
def isDigitCh (c : Char) : Bool := '0' ≤ c && c ≤ '9'

/-- Numeric value of an ASCII digit character. -/
def digVal (c : Char) : Nat := c.toNat - '0'.toNat

/-- Natural number denoted by a list of ASCII digits. -/
def natOfDigits (l : List Char) : Nat := l.foldl (fun a c => a * 10 + digVal c) 0

/-- Decimal rendering zero-padded to two digits. -/
def pad2 (n : Nat) : String := if n < 10 then "0" ++ toString n else toString n

/-- Decimal rendering zero-padded to four digits. -/
def pad4 (n : Nat) : String :=
  if n < 10 then "000" ++ toString n
  else if n < 100 then "00" ++ toString n
  else if n < 1000 then "0" ++ toString n
  else toString n

/-- Decimal rendering zero-padded to six digits (strftime microseconds). -/
def pad6 (n : Nat) : String :=
  let s := toString n
  let k := s.length
  String.mk (List.replicate (6 - k) '0') ++ s

/-- Whitespace test matching the character class of Python str.strip. -/
def isPyWs (c : Char) : Bool :=
  c = ' ' || c = '\t' || c = '\n' || c.toNat = 13 || c.toNat = 11 || c.toNat = 12

/-- Split on the semicolon delimiter, as Python str.split(";"). -/
def splitSemiL (acc : List Char) : List Char → List String
  | [] => [String.mk acc.reverse]
  | c :: cs =>
    if c = ';' then String.mk acc.reverse :: splitSemiL [] cs
    else splitSemiL (c :: acc) cs

/-- Split a string on the semicolon delimiter. -/
def splitSemi (s : String) : List String := splitSemiL [] s.toList

/-- Join strings with the semicolon delimiter. -/
def joinSemi : List String → String
  | [] => ""
  | [x] => x
  | x :: xs => x ++ ";" ++ joinSemi xs

/-- Concatenation of a list of strings. -/
def concatStrs : List String → String
  | [] => ""
  | x :: xs => x ++ concatStrs xs

/-- ASCII lowercasing, as Python str.lower on the data at hand. -/
def lowerStr (s : String) : String := String.mk (s.toList.map Char.toLower)

/-- Python str.strip: drop whitespace from both ends. -/
def pyStrip (s : String) : String :=
  String.mk (((s.toList.dropWhile isPyWs).reverse.dropWhile isPyWs).reverse)

/-- Universal-newlines translation applied by Python text-mode reads:
CRLF and lone CR both become LF. -/
def univNewlinesL : List Char → List Char
  | [] => []
  | c :: cs =>
    if c.toNat = 13 then
      match cs with
      | '\n' :: rest => '\n' :: univNewlinesL rest
      | rest => '\n' :: univNewlinesL rest
    else c :: univNewlinesL cs

/-- Universal-newlines translation on strings. -/
def univNewlines (s : String) : String := String.mk (univNewlinesL s.toList)

/-- Split into lines keeping each terminating LF, as Python readlines does
after newline translation. -/
def readLinesL (acc : List Char) : List Char → List String
  | [] => if acc = [] then [] else [String.mk acc.reverse]
  | c :: cs =>
    if c = '\n' then String.mk (acc.reverse ++ ['\n']) :: readLinesL [] cs
    else readLinesL (c :: acc) cs

/-- Lines of a string, line terminators kept. -/
def readLines (s : String) : List String := readLinesL [] s.toList

example : readLines "a\nbc\nd" = ["a\n", "bc\n", "d"] := by decide
example : readLines "" = [] := by decide
example : pyStrip "  a b\n" = "a b" := by decide

/-! Strict tier: fix_trade_republic_csv. -/

/-- Result of one run of the strict tier. The file field is the on-disk
content afterwards; ret is the Python return value; structFail records the
early-return reasons (missing file, empty file, no date header). -/
structure T1Run where
  file : Option String
  changesMade : Bool
  structFail : Bool
  wrote : Bool
  ret : Bool
deriving DecidableEq, Repr

/-- Index of the first header column whose lowercasing is exactly "date". -/
def t1FindDateIdx (header : List String) : Option Nat :=
  header.findIdx? (fun col => lowerStr col = "date")

/-- Anchored match of the ISO-8601 T-separated pattern at the start of a
string, returning the six numeric groups (the regular expression used by
the strict tier, applied with re.match). -/
def iso8601AtStart (s : String) : Option (Nat × Nat × Nat × Nat × Nat × Nat) :=
  match s.toList with
  | a :: b :: c :: d :: '-' :: e :: f :: '-' :: g :: h :: 'T' ::
      i :: j :: ':' :: k :: l :: ':' :: m :: n :: _ =>
    if [a, b, c, d, e, f, g, h, i, j, k, l, m, n].all isDigitCh then
      some (natOfDigits [a, b, c, d], natOfDigits [e, f], natOfDigits [g, h],
            natOfDigits [i, j], natOfDigits [k, l], natOfDigits [m, n])
    else none
  | _ => none

/-- Render a datetime in the ISO-8601 T-separated pattern, as the strict
tier's strftime call does. -/
def renderIsoT (t : DT) : String :=
  pad4 t.year ++ "-" ++ pad2 t.month ++ "-" ++ pad2 t.day ++ "T" ++
    pad2 t.hour ++ ":" ++ pad2 t.minute ++ ":" ++ pad2 t.second

/-- Processing of one data line by the strict tier: split on the delimiter
after stripping; lines with fewer fields than the date column are kept
verbatim; a matching date cell is converted from UTC to Europe/Berlin.
Returns the emitted line and whether the cell changed; none models an
exception from the datetime constructor or the conversion. -/
def t1Line (idx : Nat) (line : String) : Option (String × Bool) :=
  let parts := splitSemi (pyStrip line)
  if parts.length ≤ idx then some (line, false)
  else
    let dateStr := parts.getD idx ""
    match iso8601AtStart dateStr with
    | none => some (joinSemi parts ++ "\n", false)
    | some (y, mo, d, h, mi, s) =>
      if validDT ⟨y, mo, d, h, mi, s, 0⟩ then
        match utcToBerlin ⟨y, mo, d, h, mi, s, 0⟩ with
        | none => none
        | some b =>
          let newStr := renderIsoT b
          if newStr ≠ dateStr then
            some (joinSemi (parts.set idx newStr) ++ "\n", true)
          else some (joinSemi parts ++ "\n", false)
      else none

/-- Strict-tier processing of all data lines, threading the changes flag;
none propagates an exception. -/
def t1Lines (idx : Nat) : List String → Option (List String × Bool)
  | [] => some ([], false)
  | l :: ls =>
    match t1Line idx l with
    | none => none
    | some (l', c) =>
      match t1Lines idx ls with
      | none => none
      | some (ls', cs) => some (l' :: ls', c || cs)

/-- The strict tier, fix_trade_republic_csv: reads the file, locates the
date column, converts matching cells, and writes back only when a change
was made. The input is the file content (none when the file is missing);
none models an uncaught exception. -/
def fixTradeRepublicCsv (file : Option String) : Option T1Run :=
  match file with
  | none => some ⟨none, false, true, false, false⟩
  | some content =>
    match readLines (univNewlines content) with
    | [] => some ⟨some content, false, true, false, false⟩
    | hd :: tl =>
      match t1FindDateIdx (splitSemi (pyStrip hd)) with
      | none => some ⟨some content, false, true, false, false⟩
      | some idx =>
        match t1Lines idx tl with
        | none => none
        | some (newTl, changed) =>
          if changed then
            some ⟨some (concatStrs (hd :: newTl)), true, false, true, true⟩
          else some ⟨some content, false, false, false, false⟩

example : fixTradeRepublicCsv (some "Date;Type\n2025-01-19T21:27:37;Deposit\n") =
    some ⟨some "Date;Type\n2025-01-19T22:27:37;Deposit\n", true, false, true, true⟩ := by
  decide
example : fixTradeRepublicCsv (some "Foo;Bar\nx;y\n") =
    some ⟨some "Foo;Bar\nx;y\n", false, true, false, false⟩ := by decide
example : fixTradeRepublicCsv (some "Date;Type\nhello;y\n") =
    some ⟨some "Date;Type\nhello;y\n", false, false, false, false⟩ := by decide

/-! Column-directed tier: fix_transaction_dates. -/

/-- Substring containment helper: does the first list occur at the start of
the second. -/
def startsWithL : List Char → List Char → Bool
  | [], _ => true
  | _ :: _, [] => false
  | a :: as, b :: bs => a = b && startsWithL as bs

/-- Substring containment (the Python in operator on strings). -/
def hasSubL (pat : List Char) : List Char → Bool
  | [] => startsWithL pat []
  | c :: cs => startsWithL pat (c :: cs) || hasSubL pat cs

/-- Substring containment on strings. -/
def hasSub (s pat : String) : Bool := hasSubL pat.toList s.toList

/-- First index of an exact element, as Python list.index. -/
def firstIdxOf (l : List String) (c : String) : Option Nat :=
  match l with
  | [] => none
  | x :: xs =>
    if x = c then some 0
    else match firstIdxOf xs c with
      | some i => some (i + 1)
      | none => none

/-- Boolean membership for index lists (the Python in operator). -/
def elemNat (x : Nat) : List Nat → Bool
  | [] => false
  | y :: ys => (x == y) || elemNat x ys

/-- Boolean membership for string lists (the Python in operator). -/
def elemStr (x : String) : List String → Bool
  | [] => false
  | y :: ys => (x == y) || elemStr x ys

/-- Record lines of a file as the csv reader sees them: split on LF, CRLF
or CR, with no trailing empty record (quoted fields are not used by the
artifacts this service produces and are not modelled). -/
def splitRecLinesL (acc : List Char) : List Char → List String
  | [] => if acc = [] then [] else [String.mk acc.reverse]
  | c :: cs =>
    if c = '\n' then String.mk acc.reverse :: splitRecLinesL [] cs
    else if c.toNat = 13 then
      match cs with
      | '\n' :: rest => String.mk acc.reverse :: splitRecLinesL [] rest
      | rest => String.mk acc.reverse :: splitRecLinesL [] rest
    else splitRecLinesL (c :: acc) cs

/-- Record lines of a string. -/
def splitRecLines (s : String) : List String := splitRecLinesL [] s.toList

/-- Serialise rows as the csv writer does with the semicolon delimiter and
CRLF terminators. -/
def csvRender (rows : List (List String)) : String :=
  concatStrs (rows.map (fun r => joinSemi r ++ String.mk [Char.ofNat 13, '\n']))

/-- The explicitly targeted date column names of fix_transaction_dates. -/
def knownDateCols : List String :=
  ["Date", "Datetime", "Trade Date", "Trade Time", "Trade DateTime",
   "Settlement Date", "Created", "CreatedAt", "Created At",
   "TransactionTime", "Transaction Time", "Datum", "Zeit", "Uhrzeit"]

/-- Date-column indices located by fix_transaction_dates: exact matches of
the known names first, then any further column whose lowercased name
contains a date, time or zeit substring. -/
def t3DateIndices (header : List String) : List Nat :=
  let exact := knownDateCols.foldl
    (fun acc col =>
      match firstIdxOf header col with
      | some i => acc ++ [i]
      | none => acc) []
  (header.enum).foldl
    (fun acc ic =>
      if !(elemNat ic.1 acc) &&
          (hasSub (lowerStr ic.2) "date" || hasSub (lowerStr ic.2) "time" ||
           hasSub (lowerStr ic.2) "zeit") then
        acc ++ [ic.1]
      else acc) exact

/-- Directives of a strptime format string. -/
inductive FD where
  | lit (c : Char)
  | Y
  | m
  | d
  | H
  | M
  | S
  | f
deriving DecidableEq, Repr

/-- Numeric directive matching of CPython strptime: greedily take two
digits when their value lies in the admissible two-digit range, otherwise
fall back to a single digit bounded below by loOne. -/
def numField (lo2 hi2 loOne : Nat) : List Char → Option (Nat × List Char)
  | a :: b :: rest =>
    if isDigitCh a then
      if isDigitCh b && lo2 ≤ digVal a * 10 + digVal b &&
          digVal a * 10 + digVal b ≤ hi2 then
        some (digVal a * 10 + digVal b, rest)
      else if loOne ≤ digVal a then some (digVal a, b :: rest)
      else none
    else none
  | [a] => if isDigitCh a && loOne ≤ digVal a then some (digVal a, []) else none
  | [] => none

/-- Greedy run of at most six digits for the fractional-seconds directive,
scaled to microseconds. -/
def fracField (cs : List Char) : Option (Nat × List Char) :=
  let digs := (cs.takeWhile isDigitCh).take 6
  if digs.length = 0 then none
  else some (natOfDigits digs * 10 ^ (6 - digs.length), cs.drop digs.length)

/-- Parser state for one strptime run. -/
structure PState where
  y : Nat
  mo : Nat
  d : Nat
  hh : Nat
  mm : Nat
  ss : Nat
  ff : Nat
deriving DecidableEq, Repr

/-- One strptime directive applied to the remaining input. -/
def runFD (st : PState) (cs : List Char) : FD → Option (PState × List Char)
  | .lit c => match cs with
    | x :: xs => if x = c then some (st, xs) else none
    | [] => none
  | .Y => match cs with
    | a :: b :: c :: d :: rest =>
      if [a, b, c, d].all isDigitCh then
        some ({ st with y := natOfDigits [a, b, c, d] }, rest)
      else none
    | _ => none
  | .m => (numField 1 12 1 cs).map (fun p => ({ st with mo := p.1 }, p.2))
  | .d => (numField 1 31 1 cs).map (fun p => ({ st with d := p.1 }, p.2))
  | .H => (numField 0 23 0 cs).map (fun p => ({ st with hh := p.1 }, p.2))
  | .M => (numField 0 59 0 cs).map (fun p => ({ st with mm := p.1 }, p.2))
  | .S => (numField 0 61 0 cs).map (fun p => ({ st with ss := p.1 }, p.2))
  | .f => (fracField cs).map (fun p => ({ st with ff := p.1 }, p.2))

/-- A full strptime run: every directive must match and the input must be
consumed entirely; the resulting fields must form a constructible
datetime, as in Python where an out-of-range component raises the
ValueError that the caller treats as parse failure. -/
def strpRun (fmt : List FD) (cs : List Char) (st : PState) : Option DT :=
  match fmt with
  | [] =>
    if cs = [] then
      let t : DT := ⟨st.y, st.mo, st.d, st.hh, st.mm, st.ss, st.ff⟩
      if validDT t then some t else none
    else none
  | fd :: rest =>
    match runFD st cs fd with
    | none => none
    | some (st', cs') => strpRun rest cs' st'

/-- Parse a string with one strptime format. -/
def strpOne (fmt : List FD) (s : String) : Option DT :=
  strpRun fmt s.toList ⟨1900, 1, 1, 0, 0, 0, 0⟩

/-- The thirteen admissible formats of fix_transaction_dates, in the
dictionary order of the source. -/
def t3Formats : List (List FD) :=
  [[.Y, .lit '-', .m, .lit '-', .d],
   [.Y, .lit '-', .m, .lit '-', .d, .lit ' ', .H, .lit ':', .M, .lit ':', .S],
   [.Y, .lit '-', .m, .lit '-', .d, .lit 'T', .H, .lit ':', .M, .lit ':', .S],
   [.Y, .lit '-', .m, .lit '-', .d, .lit ' ', .H, .lit ':', .M, .lit ':', .S,
    .lit '.', .f],
   [.d, .lit '.', .m, .lit '.', .Y],
   [.d, .lit '.', .m, .lit '.', .Y, .lit ' ', .H, .lit ':', .M, .lit ':', .S],
   [.d, .lit '.', .m, .lit '.', .Y, .lit ' ', .H, .lit ':', .M],
   [.d, .lit '/', .m, .lit '/', .Y],
   [.d, .lit '/', .m, .lit '/', .Y, .lit ' ', .H, .lit ':', .M, .lit ':', .S],
   [.m, .lit '/', .d, .lit '/', .Y],
   [.m, .lit '/', .d, .lit '/', .Y, .lit ' ', .H, .lit ':', .M, .lit ':', .S],
   [.d, .lit '-', .m, .lit '-', .Y],
   [.d, .lit '-', .m, .lit '-', .Y, .lit ' ', .H, .lit ':', .M, .lit ':', .S]]

/-- First format that parses the cell, with the parsed datetime. -/
def t3Parse (s : String) : Option (DT × List FD) :=
  match t3Formats.filterMap (fun fmt => (strpOne fmt s).map (fun t => (t, fmt))) with
  | [] => none
  | p :: _ => some p

/-- Render a datetime back through one strptime format, as strftime with
the format that matched. -/
def strfFD (t : DT) : FD → String
  | .lit c => String.mk [c]
  | .Y => pad4 t.year
  | .m => pad2 t.month
  | .d => pad2 t.day
  | .H => pad2 t.hour
  | .M => pad2 t.minute
  | .S => pad2 t.second
  | .f => pad6 t.micro

/-- Render a datetime with a whole format. -/
def strf (fmt : List FD) (t : DT) : String := concatStrs (fmt.map (strfFD t))

/-- Cell processing of the column-directed tier: blank cells and cells no
format parses are left untouched; a parsed cell gets the daylight-saving
proxy offset added and is re-rendered with the matching format; the Bool
reports whether the cell counted as a fix; none models the overflow
exception of the timedelta addition. -/
def t3Cell (s : String) : Option (String × Bool) :=
  if s ≠ "" && pyStrip s ≠ "" then
    match t3Parse s with
    | none => some (s, false)
    | some (t, fmt) =>
      match dtAddHours t (dstProxyHours t.month) with
      | none => none
      | some t' => some (strf fmt t', true)
  else some (s, false)

/-- Row processing: each located date column whose index falls inside the
row is rewritten in place; out-of-range indices are skipped. -/
def t3Row (idxs : List Nat) (row : List String) (n : Nat) :
    Option (List String × Nat) :=
  match idxs with
  | [] => some (row, n)
  | i :: is =>
    if i < row.length then
      match t3Cell (row.getD i "") with
      | none => none
      | some (c', fixed) =>
        t3Row is (row.set i c') (n + if fixed then 1 else 0)
    else t3Row is row n

/-- All rows of the artifact, threading the fix count. -/
def t3Rows (idxs : List Nat) (rows : List (List String)) (n : Nat) :
    Option (List (List String) × Nat) :=
  match rows with
  | [] => some (rows, n)
  | r :: rs =>
    match t3Row idxs r n with
    | none => none
    | some (r', n') =>
      match t3Rows idxs rs n' with
      | none => none
      | some (rs', n'') => some (r' :: rs', n'')

/-- Result of one run of the column-directed tier. -/
structure T3Run where
  file : Option String
  fixes : Nat
  wrote : Bool
deriving DecidableEq, Repr

/-- The column-directed tier, fix_transaction_dates: locate date columns,
rewrite every parseable cell, and write the artifact back whenever at
least one date column was located, regardless of the fix count; with no
located column the function returns before touching the file. none models
an uncaught exception (the empty-file StopIteration or an overflow). -/
def fixTransactionDates (file : Option String) : Option T3Run :=
  match file with
  | none => some ⟨none, 0, false⟩
  | some content =>
    match splitRecLines content with
    | [] => none
    | hd :: tl =>
      let header := splitSemi hd
      let rows := tl.map splitSemi
      let idxs := t3DateIndices header
      if idxs = [] then some ⟨some content, 0, false⟩
      else
        match t3Rows idxs rows 0 with
        | none => none
        | some (rows', fixes) =>
          some ⟨some (csvRender (header :: rows')), fixes, true⟩

example : t3Parse "2025-01-19T21:27:37" =
    some (⟨2025, 1, 19, 21, 27, 37, 0⟩,
      [.Y, .lit '-', .m, .lit '-', .d, .lit 'T', .H, .lit ':', .M, .lit ':', .S]) := by
  decide
example : t3Cell "15.05.2023 14:30:00" = some ("15.05.2023 16:30:00", true) := by decide
example : t3Cell "hello" = some ("hello", false) := by decide
example : fixTransactionDates (some "Name;Qty\x0d\nfoo;1\x0d\n") =
    some ⟨some "Name;Qty\x0d\nfoo;1\x0d\n", 0, false⟩ := by decide
example : fixTransactionDates (some "Date;Qty\x0d\nfoo;1\x0d\n") =
    some ⟨some "Date;Qty\x0d\nfoo;1\x0d\n", 0, true⟩ := by decide

/-! Pattern-scan tier: fix_transaction_dates_direct. -/

/-- The five textual patterns of the pattern-scan tier, in the order the
source applies them. -/
inductive Pat where
  | isoD
  | euroD
  | isoDT
  | euroDT
  | isoT
deriving DecidableEq, Repr

/-- Take exactly n digit characters. -/
def takeDigits (n : Nat) (cs : List Char) : Option (List Char × List Char) :=
  match n with
  | 0 => some ([], cs)
  | k + 1 =>
    match cs with
    | c :: rest =>
      if isDigitCh c then
        match takeDigits k rest with
        | some (ds, rest') => some (c :: ds, rest')
        | none => none
      else none
    | [] => none

/-- Expect one literal character. -/
def expectCh (c : Char) (cs : List Char) : Option (List Char) :=
  match cs with
  | x :: xs => if x = c then some xs else none
  | [] => none

/-- Match a date part: four digits, sep, two digits, sep, two digits for
the year-first shape, or two, sep, two, sep, four for the day-first
shape. Returns (year, month, day, rest). -/
def matchIsoDate (sep : Char) (cs : List Char) :
    Option (Nat × Nat × Nat × List Char) :=
  match takeDigits 4 cs with
  | none => none
  | some (ys, r1) =>
    match expectCh sep r1 with
    | none => none
    | some r2 =>
      match takeDigits 2 r2 with
      | none => none
      | some (ms, r3) =>
        match expectCh sep r3 with
        | none => none
        | some r4 =>
          match takeDigits 2 r4 with
          | none => none
          | some (ds, r5) =>
            some (natOfDigits ys, natOfDigits ms, natOfDigits ds, r5)

/-- Match a day-first date part dd.mm.yyyy. Returns (year, month, day, rest). -/
def matchEuroDate (cs : List Char) : Option (Nat × Nat × Nat × List Char) :=
  match takeDigits 2 cs with
  | none => none
  | some (ds, r1) =>
    match expectCh '.' r1 with
    | none => none
    | some r2 =>
      match takeDigits 2 r2 with
      | none => none
      | some (ms, r3) =>
        match expectCh '.' r3 with
        | none => none
        | some r4 =>
          match takeDigits 4 r4 with
          | none => none
          | some (ys, r5) =>
            some (natOfDigits ys, natOfDigits ms, natOfDigits ds, r5)

/-- Match a time part hh:mm:ss after a separator character. -/
def matchTimePart (sep : Char) (cs : List Char) :
    Option (Nat × Nat × Nat × List Char) :=
  match expectCh sep cs with
  | none => none
  | some r0 =>
    match takeDigits 2 r0 with
    | none => none
    | some (hs, r1) =>
      match expectCh ':' r1 with
      | none => none
      | some r2 =>
        match takeDigits 2 r2 with
        | none => none
        | some (ms, r3) =>
          match expectCh ':' r3 with
          | none => none
          | some (r4) =>
            match takeDigits 2 r4 with
            | none => none
            | some (ss, r5) => some (natOfDigits hs, natOfDigits ms, natOfDigits ss, r5)

/-- Match one of the five patterns at the current position, returning the
six datetime components and the remaining input. -/
def matchPat : Pat → List Char → Option (Nat × Nat × Nat × Nat × Nat × Nat × List Char)
  | .isoD, cs =>
    (matchIsoDate '-' cs).map (fun p => (p.1, p.2.1, p.2.2.1, 0, 0, 0, p.2.2.2))
  | .euroD, cs =>
    (matchEuroDate cs).map (fun p => (p.1, p.2.1, p.2.2.1, 0, 0, 0, p.2.2.2))
  | .isoDT, cs =>
    match matchIsoDate '-' cs with
    | none => none
    | some (y, mo, d, r) =>
      (matchTimePart ' ' r).map (fun p => (y, mo, d, p.1, p.2.1, p.2.2.1, p.2.2.2))
  | .euroDT, cs =>
    match matchEuroDate cs with
    | none => none
    | some (y, mo, d, r) =>
      (matchTimePart ' ' r).map (fun p => (y, mo, d, p.1, p.2.1, p.2.2.1, p.2.2.2))
  | .isoT, cs =>
    match matchIsoDate '-' cs with
    | none => none
    | some (y, mo, d, r) =>
      (matchTimePart 'T' r).map (fun p => (y, mo, d, p.1, p.2.1, p.2.2.1, p.2.2.2))

/-- Unpadded decimal rendering of the year, as the f-strings of the
pattern-scan tier produce. -/
def yearStr (y : Nat) : String := toString y

/-- Render a shifted match in its original pattern, via the handler
f-strings of the source. -/
def renderPat (p : Pat) (t : DT) : String :=
  match p with
  | .isoD => yearStr t.year ++ "-" ++ pad2 t.month ++ "-" ++ pad2 t.day
  | .euroD => pad2 t.day ++ "." ++ pad2 t.month ++ "." ++ yearStr t.year
  | .isoDT => yearStr t.year ++ "-" ++ pad2 t.month ++ "-" ++ pad2 t.day ++ " " ++
      pad2 t.hour ++ ":" ++ pad2 t.minute ++ ":" ++ pad2 t.second
  | .euroDT => pad2 t.day ++ "." ++ pad2 t.month ++ "." ++ yearStr t.year ++ " " ++
      pad2 t.hour ++ ":" ++ pad2 t.minute ++ ":" ++ pad2 t.second
  | .isoT => yearStr t.year ++ "-" ++ pad2 t.month ++ "-" ++ pad2 t.day ++ "T" ++
      pad2 t.hour ++ ":" ++ pad2 t.minute ++ ":" ++ pad2 t.second

/-- Replacement text for one match: construct the datetime (a ValueError
from invalid components propagates, modelled as none), add the
daylight-saving proxy offset, re-render in the original pattern. -/
def t2Repl (p : Pat) (y mo d hh mi ss : Nat) : Option String :=
  if validDT ⟨y, mo, d, hh, mi, ss, 0⟩ then
    match dtAddHours ⟨y, mo, d, hh, mi, ss, 0⟩ (dstProxyHours mo) with
    | none => none
    | some t => some (renderPat p t)
  else none

/-- Left-to-right scan-and-substitute of one pattern, as re.sub: at each
position try the pattern; on a match emit the replacement and continue
after the matched text; replacements are not rescanned. The fuel bounds
the number of scan steps; each step consumes at least one character, so
the input length is always sufficient. -/
def t2Scan (p : Pat) : Nat → List Char → Option (List Char)
  | 0, cs => some cs
  | _ + 1, [] => some []
  | fuel + 1, c :: rest =>
    match matchPat p (c :: rest) with
    | some (y, mo, d, hh, mi, ss, rest') =>
      match t2Repl p y mo d hh mi ss with
      | none => none
      | some rep => (t2Scan p fuel rest').map (fun t => rep.toList ++ t)
    | none => (t2Scan p fuel rest).map (fun t => c :: t)

/-- One re.sub pass over a string. -/
def t2Sub (p : Pat) (s : String) : Option String :=
  (t2Scan p s.toList.length s.toList).map String.mk

/-- All five passes in source order. -/
def t2All (s : String) : Option String :=
  match t2Sub .isoD s with
  | none => none
  | some s1 =>
    match t2Sub .euroD s1 with
    | none => none
    | some s2 =>
      match t2Sub .isoDT s2 with
      | none => none
      | some s3 =>
        match t2Sub .euroDT s3 with
        | none => none
        | some s4 => t2Sub .isoT s4

/-- Result of one run of the pattern-scan tier: the tier writes back, and
returns True, exactly when the substituted text differs from the text it
read. -/
structure T2Run where
  file : Option String
  changed : Bool
deriving DecidableEq, Repr

/-- The pattern-scan tier, fix_transaction_dates_direct. none models an
uncaught exception from a replacement handler. -/
def fixTransactionDatesDirect (file : Option String) : Option T2Run :=
  match file with
  | none => some ⟨none, false⟩
  | some content =>
    let u := univNewlines content
    match t2All u with
    | none => none
    | some c' =>
      if c' ≠ u then some ⟨some c', true⟩ else some ⟨some content, false⟩

example : t2All "x 2023-06-15T14:30:00 y" = some "x 2023-06-15T16:30:00 y" := by decide
example : t2All "no dates here" = some "no dates here" := by decide
example : t2All "2025-01-19" = some "2025-01-19" := by decide
example : fixTransactionDatesDirect (some "a;2023-12-01 10:00:00\n") =
    some ⟨some "a;2023-12-01 11:00:00\n", true⟩ := by decide

/-! The cascade as invoked from fetch_data on the transaction artifact. -/

/-- Trace of one cascade run: the strict tier always runs; the pattern
tier only when the strict tier returned False; the column tier only when
the pattern tier also returned False. -/
structure CascadeRun where
  t1 : T1Run
  t2 : Option T2Run
  t3 : Option T3Run
  file : Option String
deriving DecidableEq, Repr

/-- Number of tiers of a run that wrote the artifact back. -/
def writeCount (r : CascadeRun) : Nat :=
  (if r.t1.wrote then 1 else 0) +
  (match r.t2 with | some r2 => if r2.changed then 1 else 0 | none => 0) +
  (match r.t3 with | some r3 => if r3.wrote then 1 else 0 | none => 0)

/-- The timestamp-correction cascade of fetch_data, run on an existing
transaction artifact: if not fix_trade_republic_csv, then if not
fix_transaction_dates_direct, then fix_transaction_dates. none models an
exception escaping a tier. -/
def cascadeTx (content : String) : Option CascadeRun :=
  match fixTradeRepublicCsv (some content) with
  | none => none
  | some r1 =>
    if r1.ret then some ⟨r1, none, none, r1.file⟩
    else
      match fixTransactionDatesDirect r1.file with
      | none => none
      | some r2 =>
        if r2.changed then some ⟨r1, some r2, none, r2.file⟩
        else
          match fixTransactionDates r2.file with
          | none => none
          | some r3 => some ⟨r1, some r2, some r3, r3.file⟩

example : cascadeTx "Date;Type\n2025-01-19T21:27:37;Deposit\n" =
    some ⟨⟨some "Date;Type\n2025-01-19T22:27:37;Deposit\n", true, false, true, true⟩,
      none, none, some "Date;Type\n2025-01-19T22:27:37;Deposit\n"⟩ := by decide
example : (cascadeTx "Name;When\nfoo;2023-12-01 10:00:00\n").map writeCount = some 1 := by
  decide
example : (cascadeTx "Date;Qty\nfoo;1\n").map writeCount = some 1 := by decide
example : (cascadeTx "Name;Qty\nfoo;1\n").map writeCount = some 0 := by decide

/-! Session store and authentication state machine. -/

/-- Session status values stored in AUTH_SESSIONS. -/
inductive Status where
  | initializing
  | awaiting2fa
  | authenticated
  | failed
deriving DecidableEq, Repr

/-- A session record of AUTH_SESSIONS (diagnostic log fields omitted). -/
structure SessionRec where
  status : Status
  phone : String
  pin : String
  initiated : Nat
  client : Option Nat
  authAt : Option Nat
  err : Option String
deriving DecidableEq, Repr

/-- The in-memory session store, keyed by session id. -/
def Store : Type := String → Option SessionRec

/-- Point update of the store, as assignment into the Python dict. -/
def storeSet (s : Store) (id : String) (r : SessionRec) : Store :=
  fun j => if j = id then some r else s j

/-- Outcome of the initial (code-free) login attempt of start_auth. -/
inductive Login1 where
  | success (handle : Nat)
  | prompt
  | failNoPrompt
  | raised
deriving DecidableEq, Repr

/-- Outcome of the code-bearing login attempt of verify_2fa. -/
inductive Login2 where
  | success (handle : Nat)
  | failure
  | raised
deriving DecidableEq, Repr

/-- The record start_auth installs under each login outcome: it first
stores an initializing record for the generated id, then moves it to
authenticated, awaiting_2fa or failed; when an exception interrupts the
attempt the record stays initializing. -/
def startAuthRec (phone pin : String) (o : Login1) (now : Nat) : SessionRec :=
  let r0 : SessionRec :=
    ⟨.initializing, phone, pin, now, none, none, none⟩
  match o with
  | .success h => { r0 with status := .authenticated, client := some h, authAt := some now }
  | .prompt => { r0 with status := .awaiting2fa }
  | .failNoPrompt => { r0 with status := .failed, err := some "Authentication failed" }
  | .raised => r0

/-- The start_auth endpoint: unconditional dict assignment at the
generated id, with no duplicate check. -/
def startAuthF (s : Store) (id phone pin : String) (o : Login1) (now : Nat) : Store :=
  storeSet s id (startAuthRec phone pin o now)

/-- The record verify_2fa installs for an awaiting session under each
outcome of the code-bearing login attempt: authenticated on success,
failed on failure and on an exception. -/
def verify2faApply (r : SessionRec) (o : Login2) (now : Nat) : SessionRec :=
  match o with
  | .success h => { r with status := .authenticated, client := some h, authAt := some now }
  | .failure => { r with status := .failed, err := some "Authentication failed" }
  | .raised => { r with status := .failed, err := some "exception" }

/-- The verify_2fa endpoint: unknown ids and ids not awaiting the
challenge are rejected without mutation, as are records with missing
credentials; otherwise the stored record is updated per the outcome. -/
def verify2faF (s : Store) (id code : String) (o : Login2) (now : Nat) : Store :=
  if id = "" || code = "" then s
  else
    match s id with
    | none => s
    | some r =>
      if r.status ≠ .awaiting2fa then s
      else if r.phone = "" || r.pin = "" then s
      else storeSet s id (verify2faApply r o now)

/-- The periodic expiry sweep, cleanup_sessions: remove every record
initiated more than 24 hours ago, regardless of status. -/
def sweepF (s : Store) (now : Nat) : Store :=
  fun j =>
    match s j with
    | some r => if now - r.initiated > 86400 then none else some r
    | none => none

/-- Operation labels of the session state machine. -/
inductive Op where
  | start (id : String)
  | verify (id : String)
  | harvest (id : String)
  | sweep
deriving DecidableEq, Repr

/-- One step of the session store under the service's operations.
start_auth runs with a freshly generated UUID, modelled by the freshness
hypothesis, and with the request validation that rejects empty
credentials; the harvest endpoint reads the stored client but never
mutates the store. -/
inductive StoreStep : Store → Op → Store → Prop where
  | start (s : Store) (id phone pin : String) (o : Login1) (now : Nat)
      (hfresh : s id = none) (hphone : phone ≠ "") (hpin : pin ≠ "") :
      StoreStep s (.start id) (startAuthF s id phone pin o now)
  | verify (s : Store) (id code : String) (o : Login2) (now : Nat) :
      StoreStep s (.verify id) (verify2faF s id code o now)
  | harvest (s : Store) (id : String) :
      StoreStep s (.harvest id) s
  | sweep (s : Store) (now : Nat) :
      StoreStep s .sweep (sweepF s now)

/-- Terminal statuses of the session state machine. -/
def terminalStatus (st : Status) : Prop :=
  st = .authenticated ∨ st = .failed

/-- Sessions other than the one verify_2fa addresses are untouched. -/
theorem verify2faF_apply_ne (s : Store) (id code : String) (o : Login2)
    (now : Nat) (i : String) (h : i ≠ id) :
    verify2faF s id code o now i = s i := by
  rcases hs : s id with _ | rec
  · simp [verify2faF, hs]
  · simp only [verify2faF, hs]
    split
    · rfl
    · split
      · rfl
      · split
        · rfl
        · simp [storeSet, h]

/-- A session already in a terminal status is rejected by verify_2fa's
state check and left unchanged. -/
theorem verify2faF_apply_terminal (s : Store) (id code : String) (o : Login2)
    (now : Nat) (r : SessionRec) (hget : s id = some r)
    (hterm : terminalStatus r.status) :
    verify2faF s id code o now id = some r := by
  have hne : r.status ≠ .awaiting2fa := by
    rcases hterm with h | h <;> rw [h] <;> simp
  simp only [verify2faF, hget]
  split
  · exact hget
  · simp [hne, hget]

/-- C1. Once a session's status is authenticated or failed it never
changes under any reachable operation (start-auth with its fresh UUID,
submit-challenge, run-harvest, expiry sweep): after any step the record is
either exactly as before or removed, and removal happens only under the
expiry sweep. -/
theorem terminal_status_never_changes (s s' : Store) (op : Op) (i : String)
    (r : SessionRec) (hstep : StoreStep s op s') (hget : s i = some r)
    (hterm : terminalStatus r.status) :
    (∀ r', s' i = some r' → r' = r) ∧ (s' i = none → op = Op.sweep) := by
  cases hstep with
  | start id phone pin o now hfresh hphone hpin =>
    have hii : i ≠ id := by
      intro h
      rw [h, hfresh] at hget
      exact Option.noConfusion hget
    have happ : startAuthF s id phone pin o now i = s i := by
      simp [startAuthF, storeSet, hii]
    constructor
    · intro r' h'
      rw [happ, hget] at h'
      exact (Option.some_inj.mp h').symm
    · intro h'
      rw [happ, hget] at h'
      exact absurd h' (Option.noConfusion)
  | verify id code o now =>
    constructor
    · intro r' h'
      by_cases hii : i = id
      · subst hii
        rw [verify2faF_apply_terminal s i code o now r hget hterm] at h'
        exact (Option.some_inj.mp h').symm
      · rw [verify2faF_apply_ne s id code o now i hii, hget] at h'
        exact (Option.some_inj.mp h').symm
    · intro h'
      by_cases hii : i = id
      · subst hii
        rw [verify2faF_apply_terminal s i code o now r hget hterm] at h'
        exact absurd h' (Option.noConfusion)
      · rw [verify2faF_apply_ne s id code o now i hii, hget] at h'
        exact absurd h' (Option.noConfusion)
  | harvest id =>
    constructor
    · intro r' h'
      rw [hget] at h'
      exact (Option.some_inj.mp h').symm
    · intro h'
      rw [hget] at h'
      exact absurd h' (Option.noConfusion)
  | sweep now =>
    constructor
    · intro r' h'
      simp only [sweepF, hget] at h'
      split at h'
      · exact absurd h' (Option.noConfusion)
      · exact (Option.some_inj.mp h').symm
    · intro _
      rfl

/-- An authenticated session record used by the concrete witnesses. -/
def wAuthRec : SessionRec := ⟨.authenticated, "p", "q", 0, some 7, some 0, none⟩

/-- A one-session store used by the concrete witnesses. -/
def wStore : Store := fun j => if j = "sid" then some wAuthRec else none

/-- Witness for C1: a concrete sweep step over a store holding an
authenticated session, instantiating the preservation theorem. -/
theorem terminal_status_never_changes_witness :
    (∀ r', sweepF wStore 3 "sid" = some r' → r' = wAuthRec) ∧
    (sweepF wStore 3 "sid" = none → Op.sweep = Op.sweep) :=
  terminal_status_never_changes wStore (sweepF wStore 3) Op.sweep "sid" wAuthRec
    (StoreStep.sweep wStore 3) (by decide) (Or.inl (by decide))

/-- C5 counterexample: a create call (start_auth's store assignment) whose
generated id already exists does not fail with DuplicateSession; it
overwrites the record, discarding the stored client handle. -/
theorem duplicate_create_overwrites_cex :
    wStore "sid" = some wAuthRec ∧ wAuthRec.client = some 7 ∧
    startAuthF wStore "sid" "p2" "q2" Login1.prompt 5 "sid" =
      some ⟨.awaiting2fa, "p2", "q2", 5, none, none, none⟩ ∧
    startAuthF wStore "sid" "p2" "q2" Login1.prompt 5 "sid" ≠ some wAuthRec := by
  refine ⟨by decide, by decide, ?_, ?_⟩ <;> decide

/-- C5 amended: start_auth stores its record by unconditional dict
assignment, so a create whose id already exists replaces the existing
record with the fresh one (no DuplicateSession failure, previous client
handle discarded); duplicate ids are only avoided because ids are fresh
UUIDs. -/
theorem create_with_existing_id_replaces (s : Store) (id phone pin : String)
    (o : Login1) (now : Nat) (r : SessionRec) (_hexist : s id = some r) :
    startAuthF s id phone pin o now id = some (startAuthRec phone pin o now) := by
  simp [startAuthF, storeSet]

/-- Witness for the amended C5 theorem at a concrete duplicated id. -/
theorem create_with_existing_id_replaces_witness :
    startAuthF wStore "sid" "p2" "q2" Login1.prompt 5 "sid" =
      some (startAuthRec "p2" "q2" Login1.prompt 5) :=
  create_with_existing_id_replaces wStore "sid" "p2" "q2" Login1.prompt 5 wAuthRec
    (by decide)

/-! Instrument-detail classifier: save_details_to_csv. -/

/-- A Python value as introspected from the detail object: a scalar
(modelled by its string rendering), a one-level mapping, or any other
container that the flattening skips. -/
inductive PyVal where
  | s (v : String)
  | dict (entries : List (String × PyVal))
  | list

/-- Dictionary insertion: an existing key is overwritten in place, a new
key is appended, as Python dict assignment. -/
def dictInsert (m : List (String × String)) (k v : String) : List (String × String) :=
  if m.any (fun p => p.1 = k) then
    m.map (fun p => if p.1 = k then (k, v) else p)
  else m ++ [(k, v)]

/-- One entry of the flattening loop: mapping values contribute one
flattened key per scalar sub-entry (nested containers are skipped),
scalar values keep their key, other containers are dropped. -/
def flattenEntry (m : List (String × String)) (k : String) (v : PyVal) :
    List (String × String) :=
  match v with
  | .dict sub =>
    sub.foldl
      (fun acc p =>
        match p.2 with
        | .s str => dictInsert acc (k ++ "_" ++ p.1) str
        | _ => acc) m
  | .s str => dictInsert m k str
  | .list => m

/-- The flattened key/value table of a detail record. -/
def flattenData (dat : List (String × PyVal)) : List (String × String) :=
  dat.foldl (fun m p => flattenEntry m p.1 p.2) []

/-- Key suffix test used by the derivative scan. -/
def strEndsWith (s suf : String) : Bool :=
  startsWithL suf.toList.reverse s.toList.reverse

/-- The derivative scan of the flattened table: any key ending in _typeId
whose value lowercases to derivative marks the instrument. -/
def scanDerivative (f : List (String × String)) : Bool :=
  f.any (fun p => strEndsWith p.1 "_typeId" && lowerStr p.2 = "derivative")

/-- The classifier of save_details_to_csv, starting from the attribute
map the introspection loops assembled (data_to_save). When the map is
empty the source writes the no-data artifact and then reads the local
variable flattened_data, which was only assigned on the non-empty branch:
the call raises UnboundLocalError, modelled as an error result. -/
def saveDetailsClassify (dat : List (String × PyVal)) : Except String Bool :=
  match dat with
  | [] => .error "UnboundLocalError: flattened_data referenced before assignment"
  | _ => .ok (scanDerivative (flattenData dat))

example : saveDetailsClassify [("instrument", .dict [("typeId", .s "DERIVATIVE")])] =
    .ok true := rfl
example : saveDetailsClassify [("instrument", .dict [("typeId", .s "stock")])] =
    .ok false := rfl
example : saveDetailsClassify [("isin", .s "IE00B4L5Y983")] = .ok false := rfl

/-- C6 is a code bug: the classifier does tolerate records whose fields
are missing or renamed, and defaults to not derivative when no flattened
key ends in the derivative suffix, but a record yielding no extractable
fields at all makes save_details_to_csv raise UnboundLocalError instead
of terminating, contradicting the no-data handling the function itself
attempts two lines earlier. -/
theorem classifier_empty_record_raises :
    saveDetailsClassify [] =
      .error "UnboundLocalError: flattened_data referenced before assignment" ∧
    saveDetailsClassify [("renamed_field", .s "x")] = .ok false ∧
    saveDetailsClassify [("data", .dict [("note", .s "no type key")])] = .ok false :=
  ⟨rfl, rfl, rfl⟩

/-! Portfolio curator: process_portfolio_csv. -/

/-- The fixed internal-only columns dropped from the holdings artifact. -/
def colsToRemove : List String := ["svgCost", "netValue", "avgCost"]

/-- Insertion into a descending list. -/
def insertDesc (x : Nat) : List Nat → List Nat
  | [] => [x]
  | y :: ys => if y ≤ x then x :: y :: ys else y :: insertDesc x ys

/-- Sort a list of indices in descending order, as list.sort(reverse=True). -/
def sortDesc : List Nat → List Nat
  | [] => []
  | x :: xs => insertDesc x (sortDesc xs)

/-- Indices of the columns to remove, first occurrences, sorted in
descending order as the source does before deleting. -/
def removalIdxs (header : List String) : List Nat :=
  sortDesc (colsToRemove.filterMap (fun c => firstIdxOf header c))

/-- Sequential deletion at each index, largest first (the del loop). An
index beyond the end of the list leaves it unchanged, as the source's
bound guard does for short rows. -/
def eraseIdxsDesc (rem : List Nat) (l : List α) : List α :=
  rem.foldl (fun r i => r.eraseIdx i) l

/-- The curator on the parsed artifact: drop the named columns from the
header and every row, relocate the identifier column, and, when a
non-empty derivative set was supplied and the identifier column exists,
keep exactly the rows whose identifier cell is present and not in the
set. -/
def processPortfolioCore (header : List String) (rows : List (List String))
    (dset : List String) : List String × List (List String) :=
  let rem := removalIdxs header
  let header' := eraseIdxsDesc rem header
  let rows' := rows.map (fun r => eraseIdxsDesc rem r)
  match firstIdxOf header' "ISIN" with
  | some k =>
    if dset ≠ [] then
      (header', rows'.filter (fun r => k < r.length && !(elemStr (r.getD k "") dset)))
    else (header', rows')
  | none => (header', rows')

/-- The curator at the file level: a missing file returns False without
writing; an empty file raises StopIteration at the header read (none);
otherwise the parsed artifact is processed and written back
unconditionally. -/
def processPortfolioFile (file : Option String) (dset : List String) :
    Option (Option String × Bool) :=
  match file with
  | none => some (none, false)
  | some content =>
    match splitRecLines content with
    | [] => none
    | hd :: tl =>
      let pr := processPortfolioCore (splitSemi hd) (tl.map splitSemi) dset
      some (some (csvRender (pr.1 :: pr.2)), true)

example : processPortfolioCore ["ISIN", "svgCost", "v"] [["A", "1", "x"], ["B", "2", "y"]]
    ["B"] = (["ISIN", "v"], [["A", "x"]]) := by decide
example : processPortfolioCore ["ISIN", "v"] [["A", "x"], ["B", "y"]] [] =
    (["ISIN", "v"], [["A", "x"], ["B", "y"]]) := by decide

/-! Positional filtering: the deletion loop keeps exactly the cells at
non-removed positions, in order. -/

/-- Keep the elements whose position, counted from n, satisfies p. -/
def idxFilterGo (p : Nat → Bool) (n : Nat) : List α → List α
  | [] => []
  | a :: l => if p n then a :: idxFilterGo p (n + 1) l else idxFilterGo p (n + 1) l

/-- Keep the elements whose position satisfies p. -/
def idxFilter (p : Nat → Bool) (l : List α) : List α := idxFilterGo p 0 l

theorem idxFilterGo_all_true (p : Nat → Bool) :
    ∀ (l : List α) (n : Nat), (∀ j, n ≤ j → p j = true) → idxFilterGo p n l = l := by
  intro l
  induction l with
  | nil => intro n _; rfl
  | cons a l ih =>
    intro n h
    simp only [idxFilterGo, h n (Nat.le_refl n)]
    simp only [if_true]
    rw [ih (n + 1) (fun j hj => h j (Nat.le_of_succ_le hj))]

theorem idxFilterGo_shift (p : Nat → Bool) :
    ∀ (l : List α) (n : Nat),
      idxFilterGo p (n + 1) l = idxFilterGo (fun j => p (j + 1)) n l := by
  intro l
  induction l with
  | nil => intro n; rfl
  | cons a l ih =>
    intro n
    simp only [idxFilterGo]
    rw [ih (n + 1)]

theorem idxFilterGo_congr (p q : Nat → Bool) (hpq : ∀ j, p j = q j) :
    ∀ (l : List α) (n : Nat), idxFilterGo p n l = idxFilterGo q n l := by
  intro l
  induction l with
  | nil => intro n; rfl
  | cons a l ih =>
    intro n
    simp only [idxFilterGo, hpq n]
    rw [ih (n + 1)]

theorem eraseIdx_eq_idxFilter :
    ∀ (l : List α) (i : Nat), l.eraseIdx i = idxFilter (fun j => j != i) l := by
  intro l
  induction l with
  | nil => intro i; cases i <;> rfl
  | cons a l ih =>
    intro i
    cases i with
    | zero =>
      show l = idxFilterGo (fun j => j != 0) 0 (a :: l)
      simp only [idxFilterGo]
      rw [if_neg (by simp)]
      rw [idxFilterGo_shift]
      exact (idxFilterGo_all_true _ l 0 (fun j _ => by simp)).symm
    | succ k =>
      show a :: l.eraseIdx k = idxFilterGo (fun j => j != k + 1) 0 (a :: l)
      simp only [idxFilterGo]
      rw [if_pos (by simp)]
      rw [idxFilterGo_shift]
      have he : (fun j => (j + 1) != (k + 1)) = (fun j => j != k) := by
        funext j
        simp [Nat.succ_ne_succ]
      rw [he]
      rw [ih k]
      rfl

theorem not_and_not_eq_not_or (a b : Bool) : ((!a) && (!b)) = !(b || a) := by
  cases a <;> cases b <;> rfl

theorem idxFilterGo_comp (q : Nat → Bool) (i : Nat)
    (hq : ∀ j, i ≤ j → q j = true) :
    ∀ (l : List α) (n : Nat), n ≤ i →
      idxFilterGo q n (idxFilterGo (fun j => j != i) n l) =
        idxFilterGo (fun j => q j && (j != i)) n l := by
  intro l
  induction l with
  | nil => intro n _; rfl
  | cons a l ih =>
    intro n hn
    rcases Nat.lt_or_ge n i with hlt | hge
    · have hne : (n != i) = true := by simp [Nat.ne_of_lt hlt]
      simp only [idxFilterGo, hne, Bool.and_true, if_true]
      rw [ih (n + 1) hlt]
    · have hni : n = i := Nat.le_antisymm hn hge
      subst hni
      have hfe : (n != n) = false := by simp
      simp only [idxFilterGo, hfe, Bool.and_false, Bool.false_eq_true, if_false]
      rw [idxFilterGo_all_true (fun j => j != n) l (n + 1)
        (fun j hj => by simp [Nat.ne_of_gt (Nat.lt_of_succ_le hj)])]
      rw [idxFilterGo_all_true q l n (fun j hj => hq j hj)]
      exact (idxFilterGo_all_true _ l (n + 1)
        (fun j hj => by
          have h1 : q j = true := hq j (Nat.le_of_succ_le hj)
          have h2 : (j != n) = true := by simp [Nat.ne_of_gt (Nat.lt_of_succ_le hj)]
          simp [h1, h2])).symm

theorem elemNat_true_iff (x : Nat) : ∀ (l : List Nat), elemNat x l = true ↔ x ∈ l := by
  intro l
  induction l with
  | nil => simp [elemNat]
  | cons y ys ih => simp [elemNat, ih, beq_iff_eq]

theorem elemStr_true_iff (x : String) : ∀ (l : List String), elemStr x l = true ↔ x ∈ l := by
  intro l
  induction l with
  | nil => simp [elemStr]
  | cons y ys ih => simp [elemStr, ih, beq_iff_eq]

theorem eraseIdxsDesc_eq_idxFilter :
    ∀ (rem : List Nat) (l : List α),
      List.Pairwise (fun a b => b < a) rem →
      eraseIdxsDesc rem l = idxFilter (fun j => !(elemNat j rem)) l := by
  intro rem
  induction rem with
  | nil =>
    intro l _
    exact (idxFilterGo_all_true _ l 0 (fun j _ => rfl)).symm
  | cons i rest ih =>
    intro l hp
    have h1 : ∀ x ∈ rest, x < i := fun x hx => (List.pairwise_cons.mp hp).1 x hx
    have h2 : List.Pairwise (fun a b => b < a) rest := (List.pairwise_cons.mp hp).2
    show eraseIdxsDesc rest (l.eraseIdx i) = _
    rw [ih (l.eraseIdx i) h2]
    rw [eraseIdx_eq_idxFilter l i]
    have hq : ∀ j, i ≤ j → (!(elemNat j rest)) = true := by
      intro j hj
      have hnm : j ∉ rest := by
        intro hmem
        exact absurd (h1 j hmem) (Nat.not_lt.mpr hj)
      cases he : elemNat j rest with
      | false => rfl
      | true => exact absurd ((elemNat_true_iff j rest).mp he) hnm
    show idxFilterGo _ 0 (idxFilterGo _ 0 l) = idxFilterGo _ 0 l
    rw [idxFilterGo_comp _ i hq l 0 (Nat.zero_le i)]
    refine idxFilterGo_congr _ _ (fun j => ?_) l 0
    show ((!(elemNat j rest)) && (!(j == i))) = !((j == i) || elemNat j rest)
    exact not_and_not_eq_not_or _ _

theorem firstIdxOf_get (c : String) :
    ∀ (l : List String) (i : Nat), firstIdxOf l c = some i → l.get? i = some c := by
  intro l
  induction l with
  | nil => intro i h; exact absurd h (by simp [firstIdxOf])
  | cons x xs ih =>
    intro i h
    by_cases hx : x = c
    · simp only [firstIdxOf, if_pos hx] at h
      injection h with h'
      subst h'
      simp [hx]
    · simp only [firstIdxOf, if_neg hx] at h
      cases hf : firstIdxOf xs c with
      | none => rw [hf] at h; exact absurd h (by simp)
      | some j =>
        rw [hf] at h
        injection h with h'
        subst h'
        simpa using ih j hf

theorem firstIdxOf_lt (c : String) :
    ∀ (l : List String) (i : Nat), firstIdxOf l c = some i → i < l.length := by
  intro l i h
  have hg := firstIdxOf_get c l i h
  exact List.get?_eq_some.mp hg |>.1

theorem removalSrc_nodup (header : List String) :
    (colsToRemove.filterMap (fun c => firstIdxOf header c)).Nodup := by
  have hcols : colsToRemove.Nodup := by decide
  refine hcols.filterMap ?_
  intro a a' b hb hb'
  have ha := firstIdxOf_get a header b (Option.mem_def.mp hb)
  have ha' := firstIdxOf_get a' header b (Option.mem_def.mp hb')
  rw [ha] at ha'
  exact Option.some_inj.mp ha'

theorem insertDesc_perm (x : Nat) :
    ∀ (l : List Nat), List.Perm (insertDesc x l) (x :: l) := by
  intro l
  induction l with
  | nil => exact List.Perm.refl _
  | cons y ys ih =>
    unfold insertDesc
    split
    · exact List.Perm.refl _
    · exact (List.Perm.cons y ih).trans (List.Perm.swap x y ys)

theorem sortDesc_perm : ∀ (l : List Nat), List.Perm (sortDesc l) l := by
  intro l
  induction l with
  | nil => exact List.Perm.refl _
  | cons x xs ih => exact (insertDesc_perm x (sortDesc xs)).trans (List.Perm.cons x ih)

theorem insertDesc_sorted (x : Nat) :
    ∀ (l : List Nat), l.Pairwise (fun a b => b ≤ a) →
      (insertDesc x l).Pairwise (fun a b => b ≤ a) := by
  intro l
  induction l with
  | nil => intro _; simp [insertDesc]
  | cons y ys ih =>
    intro h
    rcases List.pairwise_cons.mp h with ⟨hy, hys⟩
    unfold insertDesc
    split
    · refine List.pairwise_cons.mpr ⟨?_, h⟩
      intro z hz
      rcases List.mem_cons.mp hz with rfl | hz'
      · assumption
      · exact Nat.le_trans (hy z hz') (by assumption)
    · refine List.pairwise_cons.mpr ⟨?_, ih hys⟩
      intro z hz
      rcases List.mem_cons.mp ((insertDesc_perm x ys).mem_iff.mp hz) with rfl | hz'
      · exact Nat.le_of_lt (Nat.lt_of_not_le (by assumption))
      · exact hy z hz'

theorem sortDesc_sorted : ∀ (l : List Nat), (sortDesc l).Pairwise (fun a b => b ≤ a) := by
  intro l
  induction l with
  | nil => simp [sortDesc]
  | cons x xs ih => exact insertDesc_sorted x (sortDesc xs) ih

/-- The removal indices are pairwise strictly descending: the three column
names are distinct, first occurrences of distinct names are distinct
indices, and the reverse sort orders them. -/
theorem removalIdxs_pairwise (header : List String) :
    (removalIdxs header).Pairwise (fun a b => b < a) := by
  have hnd : (removalIdxs header).Nodup :=
    (sortDesc_perm _).nodup_iff.mpr (removalSrc_nodup header)
  have hsor := sortDesc_sorted (colsToRemove.filterMap (fun c => firstIdxOf header c))
  exact (hsor.and hnd).imp (fun hab => Nat.lt_of_le_of_ne hab.1 (Ne.symm hab.2))

theorem eraseIdxsDesc_length_pair :
    ∀ (rem : List Nat) (l1 : List α) (l2 : List β), l1.length = l2.length →
      (eraseIdxsDesc rem l1).length = (eraseIdxsDesc rem l2).length := by
  intro rem
  induction rem with
  | nil => intro l1 l2 h; exact h
  | cons i rest ih =>
    intro l1 l2 h
    show (eraseIdxsDesc rest (l1.eraseIdx i)).length = (eraseIdxsDesc rest (l2.eraseIdx i)).length
    refine ih _ _ ?_
    rw [List.length_eraseIdx, List.length_eraseIdx, h]

/-- C7. After curation with the derivative set: the emitted header is the
original with the three internal columns removed; every surviving row's
identifier cell is outside the derivative set; every full-length row
whose identifier lies outside the set survives as exactly its
column-erased form; and column erasure keeps precisely the cells at
non-removed positions, in order, so all other cell values are unchanged. -/
theorem curated_holdings (header : List String) (rows : List (List String))
    (dset : List String) (k : Nat)
    (hwf : ∀ r ∈ rows, r.length = header.length)
    (hk : firstIdxOf (eraseIdxsDesc (removalIdxs header) header) "ISIN" = some k) :
    (processPortfolioCore header rows dset).1 =
        eraseIdxsDesc (removalIdxs header) header ∧
    (∀ r' ∈ (processPortfolioCore header rows dset).2, r'.getD k "" ∉ dset) ∧
    (∀ r ∈ rows, (eraseIdxsDesc (removalIdxs header) r).getD k "" ∉ dset →
      eraseIdxsDesc (removalIdxs header) r ∈ (processPortfolioCore header rows dset).2) ∧
    (∀ r ∈ rows, eraseIdxsDesc (removalIdxs header) r =
      idxFilter (fun j => !(elemNat j (removalIdxs header))) r) := by
  have hchar : ∀ r : List String, eraseIdxsDesc (removalIdxs header) r =
      idxFilter (fun j => !(elemNat j (removalIdxs header))) r :=
    fun r => eraseIdxsDesc_eq_idxFilter _ r (removalIdxs_pairwise header)
  by_cases hd : dset = []
  · subst hd
    have hout : processPortfolioCore header rows [] =
        (eraseIdxsDesc (removalIdxs header) header,
         rows.map (fun r => eraseIdxsDesc (removalIdxs header) r)) := by
      simp [processPortfolioCore, hk]
    rw [hout]
    refine ⟨rfl, ?_, ?_, fun r _ => hchar r⟩
    · intro r' _ hmem
      exact absurd hmem (List.not_mem_nil _)
    · intro r hr _
      exact List.mem_map.mpr ⟨r, hr, rfl⟩
  · have hout : processPortfolioCore header rows dset =
        (eraseIdxsDesc (removalIdxs header) header,
         (rows.map (fun r => eraseIdxsDesc (removalIdxs header) r)).filter
           (fun r => k < r.length && !(elemStr (r.getD k "") dset))) := by
      simp [processPortfolioCore, hk, hd]
    rw [hout]
    refine ⟨rfl, ?_, ?_, fun r _ => hchar r⟩
    · intro r' hr' hmem
      have hp := (List.mem_filter.mp hr').2
      have h2 : (!(elemStr (r'.getD k "") dset)) = true := ((Bool.and_eq_true _ _).mp hp).2
      have h3 : elemStr (r'.getD k "") dset = false := by
        cases hc : elemStr (r'.getD k "") dset
        · rfl
        · rw [hc] at h2
          exact absurd h2 (by decide)
      have h4 := (elemStr_true_iff _ dset).mpr hmem
      rw [h3] at h4
      exact Bool.noConfusion h4
    · intro r hr hnot
      refine List.mem_filter.mpr ⟨List.mem_map.mpr ⟨r, hr, rfl⟩, ?_⟩
      have hlen : (eraseIdxsDesc (removalIdxs header) r).length =
          (eraseIdxsDesc (removalIdxs header) header).length :=
        eraseIdxsDesc_length_pair _ r header (hwf r hr)
      have hklt : k < (eraseIdxsDesc (removalIdxs header) r).length := by
        rw [hlen]
        exact firstIdxOf_lt "ISIN" _ k hk
      have hel : elemStr ((eraseIdxsDesc (removalIdxs header) r).getD k "") dset = false := by
        cases hc : elemStr ((eraseIdxsDesc (removalIdxs header) r).getD k "") dset
        · rfl
        · exact absurd ((elemStr_true_iff _ dset).mp hc) hnot
      simp only [hel, Bool.not_false, Bool.and_true, decide_eq_true_eq]
      exact hklt

/-- Witness for C7 at a concrete artifact: two rows, one derivative. -/
theorem curated_holdings_witness :
    (processPortfolioCore ["ISIN", "svgCost"] [["A", "1"], ["B", "2"]] ["B"]).1 =
      eraseIdxsDesc (removalIdxs ["ISIN", "svgCost"]) ["ISIN", "svgCost"] :=
  (curated_holdings ["ISIN", "svgCost"] [["A", "1"], ["B", "2"]] ["B"] 0
    (by decide) (by decide)).1

/-- C8 counterexample: with the identifier column absent the curator is
not a complete no-op; the three internal columns are still dropped. -/
theorem curator_no_isin_cex :
    firstIdxOf ["svgCost", "v"] "ISIN" = none ∧
    processPortfolioCore ["svgCost", "v"] [["1", "x"]] ["B"] = (["v"], [["x"]]) ∧
    (["v"], [["x"]]) ≠
      ((["svgCost", "v"] : List String), ([["1", "x"]] : List (List String))) := by
  refine ⟨rfl, by decide, by decide⟩

/-- C8 amended: when the identifier column is absent from the
post-removal header, the derivative filtering is skipped entirely, so no
row is removed; every row is kept in its column-erased form (the three
internal columns are still dropped). -/
theorem curator_no_isin_keeps_rows (header : List String) (rows : List (List String))
    (dset : List String)
    (hnone : firstIdxOf (eraseIdxsDesc (removalIdxs header) header) "ISIN" = none) :
    processPortfolioCore header rows dset =
      (eraseIdxsDesc (removalIdxs header) header,
       rows.map (fun r => eraseIdxsDesc (removalIdxs header) r)) := by
  simp [processPortfolioCore, hnone]

/-- Witness for the amended C8 theorem at a concrete artifact. -/
theorem curator_no_isin_keeps_rows_witness :
    processPortfolioCore ["svgCost", "v"] [["1", "x"]] ["B"] =
      (eraseIdxsDesc (removalIdxs ["svgCost", "v"]) ["svgCost", "v"],
       [["1", "x"]].map (fun r => eraseIdxsDesc (removalIdxs ["svgCost", "v"]) r)) :=
  curator_no_isin_keeps_rows ["svgCost", "v"] [["1", "x"]] ["B"] (by decide)

/-- The strict tier's write discipline: it writes exactly when it returns
True, and it returns False exactly when it failed structurally or made
zero changes. -/
theorem t1_run_flags (f : Option String) (r : T1Run)
    (h : fixTradeRepublicCsv f = some r) :
    r.wrote = r.ret ∧
    (r.ret = false ↔ r.structFail = true ∨ r.changesMade = false) := by
  unfold fixTradeRepublicCsv at h
  split at h
  · cases h
    exact ⟨rfl, by simp⟩
  · split at h
    · cases h
      exact ⟨rfl, by simp⟩
    · split at h
      · cases h
        exact ⟨rfl, by simp⟩
      · split at h
        · exact Option.noConfusion h
        · split at h
          · cases h
            exact ⟨rfl, by simp⟩
          · cases h
            exact ⟨rfl, by simp⟩

/-- C2. On every non-raising cascade run: at most one tier writes the
artifact back; the pattern tier is invoked only when the strict tier
returned False, which happens exactly when the strict tier failed
structurally or reported zero changed values; and the column tier is
invoked only when the pattern tier reported its text unchanged. -/
theorem cascade_at_most_one_write (content : String) (r : CascadeRun)
    (h : cascadeTx content = some r) :
    writeCount r ≤ 1 ∧
    (∀ r2, r.t2 = some r2 →
      r.t1.ret = false ∧ (r.t1.structFail = true ∨ r.t1.changesMade = false)) ∧
    (∀ r3, r.t3 = some r3 → ∃ r2, r.t2 = some r2 ∧ r2.changed = false) := by
  unfold cascadeTx at h
  split at h
  · exact Option.noConfusion h
  case h_2 r1 heq =>
    have hflags := t1_run_flags (some content) r1 heq
    split at h
    case isTrue hret =>
      cases h
      refine ⟨?_, ?_, ?_⟩
      · simp [writeCount, hflags.1, hret]
      · intro r2 h2
        exact Option.noConfusion h2
      · intro r3 h3
        exact Option.noConfusion h3
    case isFalse hret =>
      have hret' : r1.ret = false := by
        cases hb : r1.ret
        · rfl
        · exact absurd hb hret
      split at h
      · exact Option.noConfusion h
      case h_2 r2 heq2 =>
        split at h
        case isTrue hch =>
          cases h
          refine ⟨?_, ?_, ?_⟩
          · simp [writeCount, hflags.1, hret', hch]
          · intro r2' h2
            cases h2
            exact ⟨hret', hflags.2.mp hret'⟩
          · intro r3 h3
            exact Option.noConfusion h3
        case isFalse hch =>
          have hch' : r2.changed = false := by
            cases hb : r2.changed
            · rfl
            · exact absurd hb hch
          split at h
          · exact Option.noConfusion h
          case h_2 r3 heq3 =>
            cases h
            refine ⟨?_, ?_, ?_⟩
            · simp only [writeCount, hflags.1, hret', hch']
              cases r3.wrote <;> simp
            · intro r2' h2
              cases h2
              exact ⟨hret', hflags.2.mp hret'⟩
            · intro r3' h3
              cases h3
              exact ⟨r2, rfl, hch'⟩

/-- The cascade run on a concrete artifact with a date column and no
parseable dates: the strict and pattern tiers report no changes, and the
column tier rewrites the file. -/
def c2Run : CascadeRun :=
  ⟨⟨some "Date;X\nfoo;1\n", false, false, false, false⟩,
   some ⟨some "Date;X\nfoo;1\n", false⟩,
   some ⟨some "Date;X\x0d\nfoo;1\x0d\n", 0, true⟩,
   some "Date;X\x0d\nfoo;1\x0d\n"⟩

/-- Witness for C2 at the concrete artifact. -/
theorem cascade_at_most_one_write_witness : writeCount c2Run ≤ 1 :=
  (cascade_at_most_one_write "Date;X\nfoo;1\n" c2Run (by decide)).1

/-- C4. For any artifact whose header locates the date column
(case-insensitive) at index i, a data line whose i-th field is
2025-01-19T21:27:37 has that cell treated as a UTC instant, converted to
Europe/Berlin at its winter offset of one hour, and rewritten as
2025-01-19T22:27:37 in the same ISO-8601 T-separated pattern. -/
theorem strict_tier_winter_conversion (hdr : List String) (i : Nat)
    (line : String) (parts : List String)
    (_hidx : t1FindDateIdx hdr = some i)
    (hsplit : splitSemi (pyStrip line) = parts)
    (hlen : i < parts.length)
    (hcell : parts.getD i "" = "2025-01-19T21:27:37") :
    t1Line i line = some (joinSemi (parts.set i "2025-01-19T22:27:37") ++ "\n", true) := by
  have hconv : iso8601AtStart "2025-01-19T21:27:37" =
      some (2025, 1, 19, 21, 27, 37) := by decide
  have hvalid : validDT ⟨2025, 1, 19, 21, 27, 37, 0⟩ = true := by decide
  have hberlin : utcToBerlin ⟨2025, 1, 19, 21, 27, 37, 0⟩ =
      some ⟨2025, 1, 19, 22, 27, 37, 0⟩ := by decide
  have hrender : renderIsoT ⟨2025, 1, 19, 22, 27, 37, 0⟩ = "2025-01-19T22:27:37" := by
    decide
  simp only [t1Line, hsplit, hcell, hconv, hvalid, if_true,
    Nat.not_le.mpr hlen, if_false, hberlin, hrender]
  rw [if_pos (show "2025-01-19T22:27:37" ≠ "2025-01-19T21:27:37" by decide)]

/-- Witness for C4 at the concrete sample artifact line. -/
theorem strict_tier_winter_conversion_witness :
    t1Line 0 "2025-01-19T21:27:37;Deposit\n" =
      some (joinSemi (["2025-01-19T21:27:37", "Deposit"].set 0 "2025-01-19T22:27:37")
        ++ "\n", true) :=
  strict_tier_winter_conversion ["Date", "Type"] 0 "2025-01-19T21:27:37;Deposit\n"
    ["2025-01-19T21:27:37", "Deposit"] (by decide) (by decide) (by decide) (by decide)

/-- C9 amended: the column-directed tier leaves every cell it cannot parse
untouched and, applied to an artifact with zero recognizable date/time
columns, returns before any write, leaving the file byte-identical with
zero reported fixes; however, whenever at least one date/time column is
located it writes the artifact back even when zero cells changed (see the
counterexample). -/
theorem column_tier_frame :
    (∀ cell : String, t3Parse cell = none → t3Cell cell = some (cell, false)) ∧
    (∀ (content hd : String) (tl : List String),
      splitRecLines content = hd :: tl →
      t3DateIndices (splitSemi hd) = [] →
      fixTransactionDates (some content) = some ⟨some content, 0, false⟩) := by
  constructor
  · intro cell hparse
    unfold t3Cell
    split
    · rw [hparse]
    · rfl
  · intro content hd tl hsplit hidx
    simp only [fixTransactionDates]
    rw [hsplit]
    simp only [hidx, if_pos]

/-- Witness for the amended C9 theorem: an unparseable cell and an
artifact with no recognizable date column. -/
theorem column_tier_frame_witness :
    t3Cell "hello" = some ("hello", false) ∧
    fixTransactionDates (some "Name;Qty\nfoo;1\n") =
      some ⟨some "Name;Qty\nfoo;1\n", 0, false⟩ :=
  ⟨column_tier_frame.1 "hello" (by decide),
   column_tier_frame.2 "Name;Qty\nfoo;1\n" "Name;Qty" ["foo;1"] (by decide) (by decide)⟩

/-- C9 counterexample: on an artifact with a located date column whose
only cell is unparseable, the column tier reports zero fixes yet still
writes the artifact back, refuting that it writes only when at least one
cell changed. -/
theorem column_tier_writes_without_changes_cex :
    (fixTransactionDates (some "Date;Qty\x0d\nfoo;1\x0d\n")).map T3Run.wrote =
      some true ∧
    (fixTransactionDates (some "Date;Qty\x0d\nfoo;1\x0d\n")).map T3Run.fixes =
      some 0 := by
  exact ⟨by decide, by decide⟩

/-- C10. Bound guards of the tiers: a strict-tier data line that splits
into no more fields than the date column index is emitted verbatim with
no change recorded, and a column-tier row is left untouched, with the fix
count unchanged, when every located column index falls outside it. -/
theorem short_rows_untouched :
    (∀ (idx : Nat) (line : String),
      (splitSemi (pyStrip line)).length ≤ idx → t1Line idx line = some (line, false)) ∧
    (∀ (idxs : List Nat) (row : List String) (n : Nat),
      (∀ i ∈ idxs, row.length ≤ i) → t3Row idxs row n = some (row, n)) := by
  constructor
  · intro idx line h
    unfold t1Line
    rw [if_pos h]
  · intro idxs
    induction idxs with
    | nil => intro row n _; rfl
    | cons i is ih =>
      intro row n h
      unfold t3Row
      rw [if_neg (Nat.not_lt.mpr (h i (List.mem_cons_self i is)))]
      exact ih row n (fun j hj => h j (List.mem_cons_of_mem i hj))

/-- Witness for C10 at a concrete short line and short row. -/
theorem short_rows_untouched_witness :
    t1Line 5 "a;b\n" = some ("a;b\n", false) ∧
    t3Row [3, 4] ["x", "y"] 0 = some (["x", "y"], 0) :=
  ⟨short_rows_untouched.1 5 "a;b\n" (by decide),
   short_rows_untouched.2 [3, 4] ["x", "y"] 0 (by decide)⟩

/-! Harvest pipeline: fetch_data. -/

/-- Deduplication preserving first occurrences, modelling the set of
identifiers accumulated from the holdings artifact (the source iterates a
Python set; the model fixes first-occurrence order, which no claim
depends on). -/
def dedupFirst (seen : List String) : List String → List String
  | [] => []
  | x :: xs =>
    if elemStr x seen then dedupFirst seen xs
    else x :: dedupFirst (x :: seen) xs

/-- Distinct non-blank identifiers of the holdings artifact, read from
its ISIN column as the DictReader loop does (rows too short for the
column and blank cells are skipped). -/
def extractIsins (content : String) : List String :=
  match splitRecLines content with
  | [] => []
  | hd :: tl =>
    match firstIdxOf (splitSemi hd) "ISIN" with
    | none => []
    | some i =>
      dedupFirst []
        (tl.filterMap (fun l =>
          let row := splitSemi l
          if i < row.length then
            if row.getD i "" ≠ "" ∧ pyStrip (row.getD i "") ≠ "" then
              some (row.getD i "")
            else none
          else none))

/-- Sub-fetch labels, recorded when the pipeline starts each external
retrieval. -/
inductive StepTag where
  | tx
  | portfolio
  | cash
  | details
deriving DecidableEq, Repr

/-- Outcome of the transaction-export call: the expected SystemExit
terminator, some other exception with its message, or a plain return. -/
inductive TxCall where
  | sysExit
  | raised (msg : String)
  | normal
deriving DecidableEq, Repr

/-- Outcomes of the external provider calls a harvest run makes. -/
structure Env where
  txCall : TxCall
  portfolioCall : Except String String
  cashCall : Except String String
  detailsCall : String → Except String (List (String × PyVal))

/-- The artifact files the pipeline touches. -/
structure FS where
  acc : Option String
  tx : Option String
  portfolio : Option String
  cash : Option String
deriving DecidableEq, Repr

/-- Result of one harvest run: overall outcome, reported error, reported
file list, file state, and the sub-fetches that started. -/
structure HarvestRun where
  ok : Bool
  err : Option String
  files : List String
  fs : FS
  steps : List StepTag
deriving DecidableEq, Repr

/-- The per-identifier detail loop: each detail fetch or classification
failure aborts the whole run (there is no per-identifier handler);
derivative identifiers accumulate in the set and their artifacts are
discarded, others contribute a detail artifact. -/
def detailsLoop (env : Env) : List String → List String → List String →
    Except String (List String × List String)
  | [], files, dset => .ok (files, dset)
  | isin :: rest, files, dset =>
    match env.detailsCall isin with
    | .error m => .error m
    | .ok dat =>
      match saveDetailsClassify dat with
      | .error m => .error m
      | .ok true => detailsLoop env rest files (dset ++ [isin])
      | .ok false => detailsLoop env rest (files ++ ["details_" ++ isin ++ ".csv"]) dset

/-- The pipeline from the portfolio step on: a raising portfolio, cash or
detail call is caught only by the outermost handler, which discards the
file list and returns the error, so the remaining sub-fetches never
start; on success the curator is applied to the holdings artifact with
the accumulated derivative set. -/
def afterTx (env : Env) (fs : FS) (files : List String) (steps : List StepTag) :
    HarvestRun :=
  match env.portfolioCall with
  | .error m => ⟨false, some m, [], fs, steps ++ [.portfolio]⟩
  | .ok pc =>
    let fs1 : FS := { fs with portfolio := some pc }
    match env.cashCall with
    | .error m => ⟨false, some m, [], fs1, (steps ++ [.portfolio]) ++ [.cash]⟩
    | .ok cj =>
      let fs2 : FS := { fs1 with cash := some cj }
      match detailsLoop env (extractIsins pc) [] [] with
      | .error m =>
        ⟨false, some m, [], fs2, ((steps ++ [.portfolio]) ++ [.cash]) ++ [.details]⟩
      | .ok (dfiles, dset) =>
        match processPortfolioFile fs2.portfolio dset with
        | none =>
          ⟨false, some "exception in portfolio processing", [], fs2,
            ((steps ++ [.portfolio]) ++ [.cash]) ++ [.details]⟩
        | some (pnew, _) =>
          ⟨true, none, ((files ++ ["portfolio.csv"]) ++ ["cash.json"]) ++ dfiles,
            { fs2 with portfolio := pnew },
            ((steps ++ [.portfolio]) ++ [.cash]) ++ [.details]⟩

/-- The whole harvest run, fetch_data: without a client handle the run
aborts before any sub-fetch; the transaction export's SystemExit is
treated as normal completion, triggering the rename of the raw export and
the timestamp cascade on the canonical artifact; any other exception,
including one escaping the cascade, aborts the run through the outermost
handler. -/
def fetchDataF (client : Bool) (env : Env) (fs0 : FS) : HarvestRun :=
  match client with
  | false => ⟨false, some "No authenticated client available", [], fs0, []⟩
  | true =>
    match env.txCall with
    | .raised msg => ⟨false, some msg, [], fs0, [.tx]⟩
    | .normal => afterTx env fs0 [] [.tx]
    | .sysExit =>
      let p1 : FS × List String :=
        match fs0.acc with
        | some a => ({ fs0 with acc := none, tx := some a }, ["transactions.csv"])
        | none => (fs0, [])
      match p1.1.tx with
      | some t =>
        match cascadeTx t with
        | none => ⟨false, some "exception in timestamp cascade", [], p1.1, [.tx]⟩
        | some cr => afterTx env { p1.1 with tx := cr.file } p1.2 [.tx]
      | none => afterTx env p1.1 p1.2 [.tx]

/-- The harvest environment of the C3 counterexample: the portfolio fetch
raises, everything else succeeds. -/
def envPortfolioRaises : Env :=
  ⟨.normal, .error "portfolio fetch raised", .ok "", fun _ => .ok []⟩

/-- An empty initial file state. -/
def fsEmpty : FS := ⟨none, none, none, none⟩

example : fetchDataF true envPortfolioRaises fsEmpty =
    ⟨false, some "portfolio fetch raised", [], fsEmpty, [.tx, .portfolio]⟩ := by decide

/-- C3 counterexample: with a valid client handle, a raising portfolio
sub-fetch is not recorded independently; the run aborts with the error
and the cash and detail sub-fetches never execute. -/
theorem subfetch_failure_aborts_cex :
    fetchDataF true envPortfolioRaises fsEmpty =
      ⟨false, some "portfolio fetch raised", [], fsEmpty, [.tx, .portfolio]⟩ ∧
    StepTag.cash ∉ (fetchDataF true envPortfolioRaises fsEmpty).steps ∧
    StepTag.details ∉ (fetchDataF true envPortfolioRaises fsEmpty).steps := by
  exact ⟨by decide, by decide, by decide⟩

theorem afterTx_portfolio_error (env : Env) (fs : FS) (files : List String)
    (steps : List StepTag) (m : String) (h : env.portfolioCall = .error m) :
    afterTx env fs files steps = ⟨false, some m, [], fs, steps ++ [.portfolio]⟩ := by
  simp only [afterTx, h]

theorem afterTx_cash_error_eq (env : Env) (fs : FS) (files : List String)
    (steps : List StepTag) (m pc : String) (hp : env.portfolioCall = .ok pc)
    (h : env.cashCall = .error m) :
    afterTx env fs files steps =
      ⟨false, some m, [], { fs with portfolio := some pc },
        (steps ++ [.portfolio]) ++ [.cash]⟩ := by
  simp only [afterTx, hp, h]

theorem afterTx_cash_error (env : Env) (fs : FS) (files : List String)
    (steps : List StepTag) (m : String) (h : env.cashCall = .error m) :
    (afterTx env fs files steps).ok = false ∧
    ((afterTx env fs files steps).steps = steps ++ [.portfolio] ∨
     (afterTx env fs files steps).steps = (steps ++ [.portfolio]) ++ [.cash]) := by
  cases hp : env.portfolioCall with
  | error m' =>
    rw [afterTx_portfolio_error env fs files steps m' hp]
    exact ⟨rfl, Or.inl rfl⟩
  | ok pc =>
    rw [afterTx_cash_error_eq env fs files steps m pc hp h]
    exact ⟨rfl, Or.inr rfl⟩

/-- Every harvest run with a client handle either aborts during the
transaction step with only that sub-fetch started, or reaches the
portfolio step through afterTx. -/
theorem fetchDataF_true_cases (env : Env) (fs : FS) :
    ((fetchDataF true env fs).ok = false ∧ (fetchDataF true env fs).steps = [.tx]) ∨
    (∃ fs' files', fetchDataF true env fs = afterTx env fs' files' [.tx]) := by
  cases htx : env.txCall with
  | raised msg =>
    left
    simp [fetchDataF, htx]
  | normal =>
    right
    exact ⟨fs, [], by simp only [fetchDataF, htx]⟩
  | sysExit =>
    cases hacc : fs.acc with
    | some a =>
      cases hct : cascadeTx a with
      | none =>
        left
        simp [fetchDataF, htx, hacc, hct]
      | some cr =>
        right
        refine ⟨{ fs with acc := none, tx := cr.file }, ["transactions.csv"], ?_⟩
        simp only [fetchDataF, htx, hacc, hct]
    | none =>
      cases htxf : fs.tx with
      | some t =>
        cases hct : cascadeTx t with
        | none =>
          left
          simp [fetchDataF, htx, hacc, htxf, hct]
        | some cr =>
          right
          refine ⟨{ fs with tx := cr.file }, [], ?_⟩
          simp only [fetchDataF, htx, hacc, htxf, hct]
      | none =>
        right
        refine ⟨fs, [], ?_⟩
        simp only [fetchDataF, htx, hacc, htxf]

/-- C3 amended: an absent client handle aborts the run before any
sub-fetch starts; a raising transaction export (other than its expected
SystemExit terminator) ends the run at once; a raising portfolio fetch
prevents the cash and detail sub-fetches from starting; and a raising
cash fetch prevents the detail sub-fetch from starting. In each case the
run returns an error result instead of recording the failure
independently. -/
theorem harvest_abort_behavior (env : Env) (fs : FS) :
    ((fetchDataF false env fs).steps = [] ∧ (fetchDataF false env fs).ok = false) ∧
    (∀ m, env.txCall = .raised m →
      fetchDataF true env fs = ⟨false, some m, [], fs, [.tx]⟩) ∧
    (∀ m, env.portfolioCall = .error m →
      (fetchDataF true env fs).ok = false ∧
      StepTag.cash ∉ (fetchDataF true env fs).steps ∧
      StepTag.details ∉ (fetchDataF true env fs).steps) ∧
    (∀ m, env.cashCall = .error m →
      (fetchDataF true env fs).ok = false ∧
      StepTag.details ∉ (fetchDataF true env fs).steps) := by
  refine ⟨⟨rfl, rfl⟩, ?_, ?_, ?_⟩
  · intro m htx
    simp only [fetchDataF, htx]
  · intro m hp
    rcases fetchDataF_true_cases env fs with ⟨hok, hst⟩ | ⟨fs', files', heq⟩
    · refine ⟨hok, ?_, ?_⟩ <;> rw [hst] <;> decide
    · rw [heq, afterTx_portfolio_error env fs' files' [.tx] m hp]
      exact ⟨rfl, (by decide : StepTag.cash ∉ [StepTag.tx] ++ [StepTag.portfolio]),
        (by decide : StepTag.details ∉ [StepTag.tx] ++ [StepTag.portfolio])⟩
  · intro m hc
    rcases fetchDataF_true_cases env fs with ⟨hok, hst⟩ | ⟨fs', files', heq⟩
    · refine ⟨hok, ?_⟩
      rw [hst]
      decide
    · rw [heq]
      rcases afterTx_cash_error env fs' files' [.tx] m hc with ⟨hok, hst | hst⟩ <;>
        exact ⟨hok, by rw [hst]; decide⟩

/-- Witness for the amended C3 theorem: concrete aborts for a missing
client, a raising transaction export, a raising portfolio fetch and a
raising cash fetch. -/
theorem harvest_abort_behavior_witness :
    (fetchDataF false envPortfolioRaises fsEmpty).steps = [] ∧
    fetchDataF true (⟨.raised "tx boom", .ok "", .ok "", fun _ => .ok []⟩ : Env)
      fsEmpty = ⟨false, some "tx boom", [], fsEmpty, [.tx]⟩ ∧
    StepTag.cash ∉ (fetchDataF true envPortfolioRaises fsEmpty).steps ∧
    StepTag.details ∉
      (fetchDataF true (⟨.normal, .ok "", .error "cash boom", fun _ => .ok []⟩ : Env)
        fsEmpty).steps :=
  ⟨(harvest_abort_behavior envPortfolioRaises fsEmpty).1.1,
   (harvest_abort_behavior _ fsEmpty).2.1 "tx boom" rfl,
   ((harvest_abort_behavior envPortfolioRaises fsEmpty).2.2.1 "portfolio fetch raised"
     rfl).2.1,
   ((harvest_abort_behavior _ fsEmpty).2.2.2 "cash boom" rfl).2⟩
